/-
Verification of the halu repository's agent core against its specification.

The development shallowly embeds, over `List Char`:
  * the streaming tool-call scanner of src/glad/qwen/main.go
    (tokenBuffer, normalizeTag, tryFlushText, tryFlushPending and the
    per-character loop of Complete, plus its tool-call decoding loop),
  * the Anthropic-backed agent loop of src/main.go (Run: retry loop,
    transcript growth, tool dispatch),
  * the path guard of src/types.go (isPathSafe over filepath.Clean/Abs)
    and the Execute functions of the read_file, list_files and ripgrep
    tools.

Effectful collaborators (HTTP transport, filesystem, subprocesses,
the tool callback) are passed in as explicit oracles; machine strings
are lists of characters; Go functions returning (T, error) become
`Except`-valued functions.
-/
import Mathlib

/-! ## Stream scanner (src/glad/qwen/main.go) -/

/-- Whitespace as recognized by Go's `unicode.IsSpace` on the Latin-1 range
(the wider Unicode space category is irrelevant to the ASCII sentinels). -/
def goIsSpace (c : Char) : Bool :=
  c = '\t' || c = '\n' || c = '\x0b' || c = '\x0c' || c = '\r' || c = ' ' ||
  c = '\x85' || c = '\xa0'

/-- `normalizeTag` removes whitespace from a tag for comparison:
`strings.Join(strings.Fields(tag), "")` deletes every whitespace character. -/
def normalizeTag (s : List Char) : List Char :=
  s.filter (fun c => !(goIsSpace c))

/-- The scanner's working state, mirroring Go's `tokenBuffer`.  `emitted`
records the concatenation of all strings passed to the `cb.Text` callback. -/
structure TokenBuffer where
  content : List Char
  pending : List Char
  toolCalls : List (List Char)
  inToolCall : Bool
  emitted : List Char
deriving Repr, DecidableEq

/-- The scanner's initial state (`buf := &tokenBuffer{}`). -/
def TokenBuffer.init : TokenBuffer :=
  { content := [], pending := [], toolCalls := [], inToolCall := false, emitted := [] }

/-- `tryFlushText`: flush accumulated text if the scanner is not inside a
tool call. -/
def tryFlushText (buf : TokenBuffer) : TokenBuffer :=
  if buf.inToolCall = false ∧ ¬ buf.content.isEmpty then
    { buf with emitted := buf.emitted ++ buf.content, content := [] }
  else
    buf

/-- `tryFlushPending`: move pending content to main content, then flush if
not inside a tool call. -/
def tryFlushPending (buf : TokenBuffer) : TokenBuffer :=
  if buf.pending.isEmpty then
    buf
  else
    let buf1 := { buf with content := buf.content ++ buf.pending, pending := [] }
    if buf1.inToolCall = false then tryFlushText buf1 else buf1

/-- The open sentinel. -/
def openTag : List Char := ("<tool_call>".data)

/-- The close sentinel. -/
def closeTag : List Char := ("</tool_call>".data)

/-- The stem checked by `strings.HasPrefix(normalized, "<tool_call")`. -/
def openTagStem : List Char := ("<tool_call".data)

/-- The stem checked by `strings.HasPrefix(normalized, "</tool_call")`. -/
def closeTagStem : List Char := ("</tool_call".data)

/-- One step of the per-character loop in `Complete` for the case where the
pending buffer is already non-empty (the character has just been appended). -/
def scanPendingChar (buf : TokenBuffer) (ch : Char) : TokenBuffer :=
  let pending1 := buf.pending ++ [ch]
  let buf1 := { buf with pending := pending1 }
  if pending1.getLast? = some '>' then
    let normalized := normalizeTag pending1
    if normalized = openTag then
      { buf1 with inToolCall := true, content := buf1.content ++ pending1, pending := [] }
    else if normalized = closeTag then
      { buf1 with content := [], pending := [], inToolCall := false,
                  toolCalls := buf1.toolCalls ++ [buf1.content ++ pending1] }
    else if openTagStem.isPrefixOf normalized || closeTagStem.isPrefixOf normalized then
      buf1
    else
      tryFlushPending buf1
  else if pending1.length > 20 then
    tryFlushPending buf1
  else
    buf1

/-- One step of the per-character loop in `Complete`. -/
def scanChar (buf : TokenBuffer) (ch : Char) : TokenBuffer :=
  if ch = '<' then
    { buf with pending := buf.pending ++ [ch] }
  else if ¬ buf.pending.isEmpty then
    scanPendingChar buf ch
  else
    tryFlushText { buf with content := buf.content ++ [ch] }

/-- Feeding one fragment: the character loop over its contents. -/
def scanFragment (buf : TokenBuffer) (content : List Char) : TokenBuffer :=
  content.foldl scanChar buf

/-- Feeding a sequence of fragments in order. -/
def scanFragments (buf : TokenBuffer) (frags : List (List Char)) : TokenBuffer :=
  frags.foldl scanFragment buf

/-- Concatenation of a fragment sequence. -/
def joinFrags : List (List Char) → List Char
  | [] => []
  | f :: fs => f ++ joinFrags fs

/-- The final flushes performed by `Complete` when the stream ends. -/
def finalizeScan (buf : TokenBuffer) : TokenBuffer :=
  tryFlushText (tryFlushPending buf)

example :
    (finalizeScan (scanFragment TokenBuffer.init ("a < b".data))).emitted
      = ("a < b".data) := by
  decide

example :
    (finalizeScan (scanFragment TokenBuffer.init ("a < b".data))).toolCalls = [] := by
  decide

/-! ## JSON payloads

`Complete` decodes each captured raw span with `encoding/json` into a
`map[string]any`.  The model below embeds the JSON grammar that decoder
accepts (objects, arrays, strings with escapes, numbers, booleans, null);
numbers are kept exactly as a decimal mantissa and exponent.  Braces in
literals are written with `\x7b`/`\x7d` escapes throughout this file. -/

inductive JsonVal where
  | jnull
  | jbool (b : Bool)
  | jnum (mantissa exponent : Int)
  | jstr (s : List Char)
  | jarr (items : List JsonVal)
  | jobj (fields : List (List Char × JsonVal))

/-- JSON insignificant whitespace (space, tab, carriage return, newline). -/
def jsonIsSpace (c : Char) : Bool :=
  c = ' ' || c = '\t' || c = '\r' || c = '\n'

/-- Value of one hexadecimal digit. -/
def hexDigitVal (c : Char) : Option Nat :=
  if '0' ≤ c ∧ c ≤ '9' then some (c.toNat - ('0').toNat)
  else if 'a' ≤ c ∧ c ≤ 'f' then some (c.toNat - ('a').toNat + 10)
  else if 'A' ≤ c ∧ c ≤ 'F' then some (c.toNat - ('A').toNat + 10)
  else none

/-- Parse the remainder of a JSON string literal (the opening quote has been
consumed); returns the decoded characters and the input after the closing
quote. -/
def parseJsonString : List Char → Option (List Char × List Char)
  | [] => none
  | '"' :: rest => some ([], rest)
  | '\\' :: '"' :: r => (parseJsonString r).map (fun p => ('"' :: p.1, p.2))
  | '\\' :: '\\' :: r => (parseJsonString r).map (fun p => ('\\' :: p.1, p.2))
  | '\\' :: '/' :: r => (parseJsonString r).map (fun p => ('/' :: p.1, p.2))
  | '\\' :: 'b' :: r => (parseJsonString r).map (fun p => ('\x08' :: p.1, p.2))
  | '\\' :: 'f' :: r => (parseJsonString r).map (fun p => ('\x0c' :: p.1, p.2))
  | '\\' :: 'n' :: r => (parseJsonString r).map (fun p => ('\n' :: p.1, p.2))
  | '\\' :: 'r' :: r => (parseJsonString r).map (fun p => ('\r' :: p.1, p.2))
  | '\\' :: 't' :: r => (parseJsonString r).map (fun p => ('\t' :: p.1, p.2))
  | '\\' :: 'u' :: a :: b :: c :: d :: r =>
    match hexDigitVal a, hexDigitVal b, hexDigitVal c, hexDigitVal d with
    | some x1, some x2, some x3, some x4 =>
      (parseJsonString r).map
        (fun p => (Char.ofNat (((x1 * 16 + x2) * 16 + x3) * 16 + x4) :: p.1, p.2))
    | _, _, _, _ => none
  | '\\' :: _ => none
  | c :: rest =>
    if c.toNat < 32 then none
    else (parseJsonString rest).map (fun p => (c :: p.1, p.2))

/-- Accumulate decimal digits. -/
def digitsToNat (acc : Nat) : List Char → Nat
  | [] => acc
  | c :: r => digitsToNat (acc * 10 + (c.toNat - ('0').toNat)) r

/-- Build a number value from sign, decimal mantissa and exponent. -/
def mkNum (neg : Bool) (mant : Nat) (e : Int) : JsonVal :=
  .jnum (if neg then -(mant : Int) else (mant : Int)) e

/-- Parse the optional exponent part of a JSON number. -/
def parseExpPart (neg : Bool) (mant : Nat) (baseExp : Int) (rest : List Char) :
    Option (JsonVal × List Char) :=
  match rest with
  | 'e' :: r =>
    match r with
    | '+' :: r2 =>
      match r2.span (fun c => c.isDigit) with
      | ([], _) => none
      | (eds, rest2) => some (mkNum neg mant (baseExp + (digitsToNat 0 eds : Int)), rest2)
    | '-' :: r2 =>
      match r2.span (fun c => c.isDigit) with
      | ([], _) => none
      | (eds, rest2) => some (mkNum neg mant (baseExp - (digitsToNat 0 eds : Int)), rest2)
    | _ =>
      match r.span (fun c => c.isDigit) with
      | ([], _) => none
      | (eds, rest2) => some (mkNum neg mant (baseExp + (digitsToNat 0 eds : Int)), rest2)
  | 'E' :: r =>
    match r with
    | '+' :: r2 =>
      match r2.span (fun c => c.isDigit) with
      | ([], _) => none
      | (eds, rest2) => some (mkNum neg mant (baseExp + (digitsToNat 0 eds : Int)), rest2)
    | '-' :: r2 =>
      match r2.span (fun c => c.isDigit) with
      | ([], _) => none
      | (eds, rest2) => some (mkNum neg mant (baseExp - (digitsToNat 0 eds : Int)), rest2)
    | _ =>
      match r.span (fun c => c.isDigit) with
      | ([], _) => none
      | (eds, rest2) => some (mkNum neg mant (baseExp + (digitsToNat 0 eds : Int)), rest2)
  | _ => some (mkNum neg mant baseExp, rest)

/-- Parse a JSON number (no leading zeros, optional fraction and exponent). -/
def parseJsonNumber (l : List Char) : Option (JsonVal × List Char) :=
  let p := match l with
    | '-' :: r => (true, r)
    | _ => (false, l)
  match (p.2).span (fun c => c.isDigit) with
  | ([], _) => none
  | (ds, rest1) =>
    if ds.length > 1 ∧ ds.head? = some '0' then none
    else
      let intVal := digitsToNat 0 ds
      match rest1 with
      | '.' :: r =>
        match r.span (fun c => c.isDigit) with
        | ([], _) => none
        | (fds, rest2) =>
          parseExpPart p.1 (digitsToNat intVal fds) (-(fds.length : Int)) rest2
      | _ => parseExpPart p.1 intVal 0 rest1

/-- Parsing mode: a full value, the items of an array after the opening
bracket, or the members of an object after the opening brace. -/
inductive JMode where
  | top
  | arrItems
  | objItems

/-- Fuel-indexed JSON parser.  A fuel of twice the input length suffices. -/
def parseJ : Nat → JMode → List Char → Option (JsonVal × List Char)
  | 0, _, _ => none
  | fuel+1, JMode.top, l =>
    match l.dropWhile jsonIsSpace with
    | 'n' :: 'u' :: 'l' :: 'l' :: rest => some (.jnull, rest)
    | 't' :: 'r' :: 'u' :: 'e' :: rest => some (.jbool true, rest)
    | 'f' :: 'a' :: 'l' :: 's' :: 'e' :: rest => some (.jbool false, rest)
    | '"' :: rest => (parseJsonString rest).map (fun p => (.jstr p.1, p.2))
    | '[' :: rest => parseJ fuel JMode.arrItems (rest.dropWhile jsonIsSpace)
    | '\x7b' :: rest => parseJ fuel JMode.objItems (rest.dropWhile jsonIsSpace)
    | l1 => parseJsonNumber l1
  | fuel+1, JMode.arrItems, l =>
    match l with
    | ']' :: rest => some (.jarr [], rest)
    | _ =>
      match parseJ fuel JMode.top l with
      | none => none
      | some (v, r) =>
        match r.dropWhile jsonIsSpace with
        | ',' :: r2 =>
          let r3 := r2.dropWhile jsonIsSpace
          if r3.head? = some ']' then none
          else
            match parseJ fuel JMode.arrItems r3 with
            | some (JsonVal.jarr vs, rest) => some (.jarr (v :: vs), rest)
            | _ => none
        | ']' :: r2 => some (.jarr [v], r2)
        | _ => none
  | fuel+1, JMode.objItems, l =>
    match l with
    | '\x7d' :: rest => some (.jobj [], rest)
    | '"' :: rest =>
      match parseJsonString rest with
      | none => none
      | some (k, r) =>
        match r.dropWhile jsonIsSpace with
        | ':' :: r2 =>
          match parseJ fuel JMode.top r2 with
          | none => none
          | some (v, r3) =>
            match r3.dropWhile jsonIsSpace with
            | ',' :: r4 =>
              let r5 := r4.dropWhile jsonIsSpace
              if r5.head? = some '\x7d' then none
              else
                match parseJ fuel JMode.objItems r5 with
                | some (JsonVal.jobj fs, rest) => some (.jobj ((k, v) :: fs), rest)
                | _ => none
            | '\x7d' :: r4 => some (.jobj [(k, v)], r4)
            | _ => none
        | _ => none
    | _ => none

/-- `json.Unmarshal` of a whole buffer: one value, then only trailing
whitespace. -/
def parseTopJson (l : List Char) : Option JsonVal :=
  match parseJ (2 * l.length + 2) JMode.top l with
  | some (v, rest) => if (rest.dropWhile jsonIsSpace).isEmpty then some v else none
  | none => none

/-- `strings.TrimSpace`. -/
def goTrimSpace (l : List Char) : List Char :=
  ((l.dropWhile goIsSpace).reverse.dropWhile goIsSpace).reverse

/-- Lookup in a decoded object with Go map semantics: a later duplicate key
overwrites an earlier one. -/
def jlookup (fields : List (List Char × JsonVal)) (key : List Char) : Option JsonVal :=
  (fields.reverse.find? (fun p => p.1 == key)).map (fun p => p.2)

/-- Decode one captured raw span, as the tool-call loop of `Complete` does:
take the substring between the first char 62 and the last char 60, trim it,
parse it as JSON, and require a string-valued name field.  Returns the name
and the decoded object, or none when the span is dropped. -/
def decodeCall (rawCall : List Char) : Option (List Char × List (List Char × JsonVal)) :=
  let start : Int := (match rawCall.findIdx? (fun c => c == '>') with
    | some i => (i : Int)
    | none => -1) + 1
  let endPos : Int := match rawCall.reverse.findIdx? (fun c => c == '<') with
    | some i => (rawCall.length : Int) - 1 - (i : Int)
    | none => -1
  if start > 0 ∧ endPos > start then
    match parseTopJson (goTrimSpace ((rawCall.drop start.toNat).take (endPos - start).toNat)) with
    | some (JsonVal.jobj fields) =>
      match jlookup fields ("name".data) with
      | some (JsonVal.jstr n) => some (n, fields)
      | _ => none
    | _ => none
  else none

/-- The ordered list of decoded tool-call records of a finished scan. -/
def decodedCalls (rawCalls : List (List Char)) : List (List Char × List (List Char × JsonVal)) :=
  rawCalls.filterMap decodeCall

example :
    parseTopJson ("\x7b\"name\":\"t\",\"x\":1\x7d".data)
      = some (JsonVal.jobj [(("name".data), JsonVal.jstr ("t".data)),
                            (("x".data), JsonVal.jnum 1 0)]) := by
  rfl

example : parseTopJson ("nope".data) = none := by rfl

example :
    decodeCall ("<tool_call> \x7b\"name\":\"t\",\"x\":1\x7d </tool_call>".data)
      = some (("t".data), [(("name".data), JsonVal.jstr ("t".data)),
                           (("x".data), JsonVal.jnum 1 0)]) := by
  rfl

/-! ## qwen session loop (Complete, src/glad/qwen/main.go) -/

/-- One chat message of the qwen session. -/
structure QMessage where
  role : List Char
  content : List Char
deriving Repr, DecidableEq

/-- The tool-call processing loop at the end of `Complete`: for each captured
raw span, decode it; on success invoke the tool callback and append one
role-system message carrying the result and a trailing newline; on failure
silently continue with the next span. -/
def qwenProcessCalls (toolFn : List Char → List (List Char × JsonVal) → List Char)
    (msgs : List QMessage) (rawCalls : List (List Char)) : List QMessage :=
  rawCalls.foldl
    (fun acc rawCall =>
      match decodeCall rawCall with
      | some (n, fields) => acc ++ [{ role := ("system".data), content := toolFn n fields ++ ['\n'] }]
      | none => acc)
    msgs

/-- The recursive turn loop of `Complete`: stream one full response (the
oracle `responses` gives the concatenated delta content of each call), scan
it, append the assistant message, process the captured tool calls, and
recurse while any span was captured.  `none` models running out of fuel. -/
def qwenComplete (toolFn : List Char → List (List Char × JsonVal) → List Char)
    (responses : Nat → List Char) : Nat → Nat → List QMessage → Option (List QMessage)
  | 0, _, _ => none
  | fuel+1, callIdx, msgs =>
    let buf := finalizeScan (scanFragment TokenBuffer.init (responses callIdx))
    let msgs1 := msgs ++ [{ role := ("assistant".data), content := responses callIdx }]
    let msgs2 := qwenProcessCalls toolFn msgs1 buf.toolCalls
    if buf.toolCalls.isEmpty then some msgs2
    else qwenComplete toolFn responses fuel (callIdx + 1) msgs2

set_option maxRecDepth 40000 in
example :
    (finalizeScan (scanFragment TokenBuffer.init
        ("hello <tool_call> \x7b\"name\":\"t\",\"x\":1\x7d </tool_call> world".data))).emitted
      = ("hello  world".data) := by
  rfl

set_option maxRecDepth 40000 in
example :
    decodedCalls (finalizeScan (scanFragment TokenBuffer.init
        ("hello <tool_call> \x7b\"name\":\"t\",\"x\":1\x7d </tool_call> world".data))).toolCalls
      = [(("t".data), [(("name".data), JsonVal.jstr ("t".data)),
                       (("x".data), JsonVal.jnum 1 0)])] := by
  rfl

/-! ## Anthropic agent loop (Run, src/main.go)

The transport is an oracle: `attempts callIdx attemptNo` is the outcome of
attempt `attemptNo` of the `callIdx`-th streamed call of the interaction
(the accumulated message content blocks, or a transport error).  The tool
registry maps a name to an `Execute` function.  Tool results are carried by
user messages holding a tool-result block; they are modelled as a dedicated
transcript turn. -/

inductive ABlock where
  | text (s : List Char)
  | toolUse (id : List Char) (toolName : List Char) (input : List (List Char × JsonVal))

inductive ATurn where
  | userText (s : List Char)
  | assistant (blocks : List ABlock)
  | toolResult (id : List Char) (content : List Char)

structure AEnv where
  attempts : Nat → Nat → Except (List Char) (List ABlock)
  tools : List Char → Option (List (List Char × JsonVal) → Except (List Char) (List Char))

/-- The retry loop of `Run`: run attempts numbered from `attempt` with `rem`
attempts remaining; a success breaks out; an error on the last remaining
attempt is returned as is. -/
def retryStream {E M : Type} (att : Nat → Except E M) : Nat → Nat → Except E M
  | 0, attempt => att attempt
  | rem+1, attempt =>
    match att attempt with
    | Except.ok m => Except.ok m
    | Except.error e => if rem = 0 then Except.error e else retryStream att rem (attempt + 1)

/-- The first tool_use block of the accumulated message, if any: the block
loop of `Run` dispatches on it and returns from inside the loop. -/
def findFirstToolUse (blocks : List ABlock) :
    Option (List Char × List Char × List (List Char × JsonVal)) :=
  blocks.findSome? (fun b =>
    match b with
    | ABlock.toolUse id n input => some (id, n, input)
    | _ => none)

/-- The final response: concatenation of the text blocks. -/
def concatText (blocks : List ABlock) : List Char :=
  blocks.foldl (fun acc b => match b with | ABlock.text s => acc ++ s | _ => acc) []

/-- Append a user turn when the prompt is non-empty after trimming. -/
def appendUserTurn (messages : List ATurn) (prompt : List Char) : List ATurn :=
  if (goTrimSpace prompt).isEmpty then messages else messages ++ [ATurn.userText prompt]

/-- The fixed attempt ceiling (`maxRetries := 10`). -/
def maxRetries : Nat := 10

/-- `Run`: append the user turn, stream with retries, append the assistant
turn, then dispatch on the first tool_use block: unknown name is fatal; a
known tool is executed, its result (or a descriptive failure string) is
appended as a tool-result turn, and the loop recurses with an empty prompt.
With no tool_use block the text content is the final answer.  `fuel` bounds
the recursion depth of the embedding. -/
def runAgent (env : AEnv) :
    Nat → Nat → List Char → List ATurn → Except (List Char) (List Char) × List ATurn
  | 0, _, _, messages => (Except.error ("recursion fuel exhausted".data), messages)
  | fuel+1, callIdx, prompt, messages =>
    let messages1 := appendUserTurn messages prompt
    match retryStream (env.attempts callIdx) maxRetries 1 with
    | Except.error e => (Except.error (("streaming error: ".data) ++ e), messages1)
    | Except.ok blocks =>
      let messages2 := messages1 ++ [ATurn.assistant blocks]
      match findFirstToolUse blocks with
      | some (id, nm, input) =>
        match env.tools nm with
        | none => (Except.error (("unknown tool: ".data) ++ nm), messages2)
        | some exec =>
          let result := match exec input with
            | Except.ok r => r
            | Except.error e => ("tool execution failed: Error: ".data) ++ e
          runAgent env fuel (callIdx + 1) [] (messages2 ++ [ATurn.toolResult id result])
      | none => (Except.ok (concatText blocks), messages2)

example :
    (runAgent
      { attempts := fun _ _ => Except.ok [ABlock.text ("hi there".data)],
        tools := fun _ => none }
      2 0 ("hello".data) []).1 = Except.ok ("hi there".data) := by
  rfl

/-! ## Path safety (isPathSafe, src/types.go) and the file tools

`filepath.Abs` and `os.Getwd` are modelled with an explicit working
directory (their error branches, which also fail the guard, do not arise in
the model); paths are Unix-style.  Each tool `Execute` returns its Go
result together with the list of filesystem or subprocess accesses it
performed, so "performs no filesystem access" is a statement about that
list. -/

/-- Split a path at the slashes. -/
def splitSlash (l : List Char) : List (List Char) :=
  l.splitOn '/'

/-- Join path elements with slashes. -/
def joinSlash : List (List Char) → List Char
  | [] => []
  | [x] => x
  | x :: xs => x ++ '/' :: joinSlash xs

/-- One element of `filepath.Clean`'s element walk, on a stack of output
elements (innermost first): empty and dot elements are dropped, dot-dot pops
a real element, cannot escape the root, and is kept at the head of a
relative path. -/
def cleanStep (rooted : Bool) (stack : List (List Char)) (comp : List Char) :
    List (List Char) :=
  if comp = [] ∨ comp = ['.'] then stack
  else if comp = ['.', '.'] then
    match stack with
    | [] => if rooted then [] else [['.', '.']]
    | top :: rest => if top = ['.', '.'] then comp :: stack else rest
  else comp :: stack

/-- `filepath.Clean` for Unix paths. -/
def goClean (path : List Char) : List Char :=
  if path = [] then ['.']
  else
    let rooted := path.head? = some '/'
    let stack := ((splitSlash path).foldl (cleanStep rooted) []).reverse
    if rooted then '/' :: joinSlash stack
    else if stack = [] then ['.']
    else joinSlash stack

/-- `filepath.IsAbs` for Unix paths. -/
def goIsAbs (path : List Char) : Bool :=
  path.head? = some '/'

/-- `filepath.Abs` with the working directory supplied: an absolute path is
cleaned, a relative one is joined onto the working directory. -/
def goAbs (cwd path : List Char) : List Char :=
  if goIsAbs path then goClean path else goClean (cwd ++ '/' :: path)

/-- `isPathSafe` (src/types.go): clean the absolute form of the path and the
working directory and require the latter to be a string prefix of the
former. -/
def isPathSafe (cwd path : List Char) : Bool :=
  let absPath := goClean (goAbs cwd path)
  let cwd1 := goClean cwd
  cwd1.isPrefixOf absPath

example : isPathSafe ("/home/u".data) ("/home/u/x.go".data) = true := by decide
example : isPathSafe ("/home/u".data) ("x.go".data) = true := by decide
example : isPathSafe ("/home/u".data) ("/etc/passwd".data) = false := by decide
example : isPathSafe ("/home/u".data) ("../other".data) = false := by decide
example : goClean ("/a/b/../c//./d".data) = ("/a/c/d".data) := by decide

/-- One recorded effect of a tool execution. -/
inductive FSAccess where
  | readF (path : List Char)
  | walk (path : List Char)
  | exec (argv : List (List Char))

/-- A Go error: `os.ErrPermission` or any other error with its text. -/
inductive GoErr where
  | permission
  | other (msg : List Char)

/-- The filesystem / subprocess oracle: file contents, the enumeration that
`filepath.Walk` visits under a root (path and is-directory flag, in walk
order), and the outcome of running a command. -/
structure GoFS where
  readFile : List Char → Except (List Char) (List Char)
  walkEnum : List Char → List (List Char × Bool)
  runCmd : List (List Char) → Except (List Char) (List Char)

/-- `read_file`'s Execute: guard the path, then read it. -/
def readFileExecute (cwd : List Char) (fs : GoFS) (path : List Char) :
    Except GoErr (List Char) × List FSAccess :=
  if isPathSafe cwd path = false then (Except.error GoErr.permission, [])
  else
    match fs.readFile path with
    | Except.error e => (Except.error (GoErr.other e), [FSAccess.readF path])
    | Except.ok content => (Except.ok content, [FSAccess.readF path])

/-- `list_files`'s Execute (src/tool_list_files.go): guard the root, then
walk it, collecting every visited non-directory whose path is itself safe.
The JSON rendering of the collected list is left as the list itself. -/
def listFilesExecute (cwd : List Char) (fs : GoFS) (path : List Char) :
    Except GoErr (List (List Char)) × List FSAccess :=
  if isPathSafe cwd path = false then (Except.error GoErr.permission, [])
  else
    (Except.ok ((fs.walkEnum path).filterMap
        (fun e => if e.2 = false ∧ isPathSafe cwd e.1 = true then some e.1 else none)),
      [FSAccess.walk path])

/-- The ripgrep option set decoded from the input map (`ok` of the Go type
assertion is `some`). -/
structure RgOpts where
  caseSensitive : Option Bool
  literal : Option Bool
  contextLines : Option Int
  wordRegexp : Option Bool
  filesWithMatches : Option Bool
  maxDepth : Option Int
  lineNumber : Option Bool

/-- Render an integer the way `fmt.Sprintf("%d", n)` does. -/
def intToChars (n : Int) : List Char :=
  (toString n).data

/-- The argument vector `ripgrep`'s Execute builds before running `rg`. -/
def rgArgs (pattern path : List Char) (opts : RgOpts) : List (List Char) :=
  let args := [("--color".data), ("never".data)]
  let args := args ++ (match opts.caseSensitive with
    | some true => [("-s".data)]
    | _ => [("-i".data)])
  let args := args ++ (match opts.literal with
    | some true => [("-F".data)]
    | _ => [])
  let args := args ++ (match opts.contextLines with
    | some n => if n > 0 then [("-C".data) ++ intToChars n] else []
    | none => [])
  let args := args ++ (match opts.wordRegexp with
    | some true => [("-w".data)]
    | _ => [])
  let args := args ++ (match opts.filesWithMatches with
    | some true => [("-l".data)]
    | _ => [])
  let args := args ++ (match opts.maxDepth with
    | some n => if n ≥ 0 then [("--max-depth=".data) ++ intToChars n] else []
    | none => [])
  let args := args ++ (match opts.lineNumber with
    | some false => [("-N".data)]
    | _ => [])
  args ++ [pattern, path]

/-- `ripgrep`'s Execute: guard the path, then run `rg` with the assembled
arguments (the post-processing of exit codes and empty output is folded
into the command oracle's result). -/
def ripgrepExecute (cwd : List Char) (fs : GoFS) (pattern path : List Char)
    (opts : RgOpts) : Except GoErr (List Char) × List FSAccess :=
  if isPathSafe cwd path = false then (Except.error GoErr.permission, [])
  else
    match fs.runCmd (("rg".data) :: rgArgs pattern path opts) with
    | Except.error e => (Except.error (GoErr.other e), [FSAccess.exec (("rg".data) :: rgArgs pattern path opts)])
    | Except.ok out => (Except.ok out, [FSAccess.exec (("rg".data) :: rgArgs pattern path opts)])

/-! ## Helper lemmas -/

/-- The scanner state after a fragment sequence depends only on the
concatenated text: feeding fragment by fragment folds the same character
step over the same characters. -/
theorem scanFragments_eq_join (frags : List (List Char)) (buf : TokenBuffer) :
    scanFragments buf frags = scanFragment buf (joinFrags frags) := by
  induction frags generalizing buf with
  | nil => rfl
  | cons f fs ih =>
    show scanFragments (scanFragment buf f) fs = _
    rw [ih (scanFragment buf f)]
    show scanFragment (scanFragment buf f) (joinFrags fs)
        = scanFragment buf (f ++ joinFrags fs)
    simp [scanFragment, List.foldl_append]

/-- C1: for every fragmentation of a full response text, feeding the
fragments in order and finalizing yields the same concatenated plain-text
output and the same ordered list of decoded tool-call records as feeding
the whole text as a single fragment. -/
theorem scanner_chunk_boundary_independent (frags : List (List Char)) :
    (finalizeScan (scanFragments TokenBuffer.init frags)).emitted
        = (finalizeScan (scanFragment TokenBuffer.init (joinFrags frags))).emitted
      ∧ decodedCalls (finalizeScan (scanFragments TokenBuffer.init frags)).toolCalls
        = decodedCalls (finalizeScan (scanFragment TokenBuffer.init (joinFrags frags))).toolCalls := by
  rw [scanFragments_eq_join frags TokenBuffer.init]
  exact ⟨rfl, rfl⟩

set_option maxRecDepth 40000 in
/-- C2: feeding the single fragment
hello <tool_call> \x7b"name":"t","x":1\x7d </tool_call> world
yields plain text concatenating to "hello  world" (two spaces) and exactly
one decoded tool-call record, named t, whose "x" argument is the number 1. -/
theorem scanner_roundtrip_single_fragment :
    (finalizeScan (scanFragment TokenBuffer.init
        ("hello <tool_call> \x7b\"name\":\"t\",\"x\":1\x7d </tool_call> world".data))).emitted
      = ("hello  world".data)
    ∧ decodedCalls (finalizeScan (scanFragment TokenBuffer.init
        ("hello <tool_call> \x7b\"name\":\"t\",\"x\":1\x7d </tool_call> world".data))).toolCalls
      = [(("t".data), [(("name".data), JsonVal.jstr ("t".data)),
                       (("x".data), JsonVal.jnum 1 0)])] := by
  exact ⟨by rfl, by rfl⟩

/-- C6: at stream end, a scanner still holding a pending buffer outside a
tool call flushes it (after the remaining content) verbatim as plain text
with no new tool-call record; a scanner still inside a tool call emits
nothing further and records nothing for the unterminated call; and while
inside a tool call no scanned character ever adds to the emitted plain
text, so the span's interior is never emitted. -/
theorem stream_end_maybe_tag_and_in_call :
    (∀ buf : TokenBuffer, buf.inToolCall = false →
        (finalizeScan buf).emitted = buf.emitted ++ buf.content ++ buf.pending
        ∧ (finalizeScan buf).toolCalls = buf.toolCalls
        ∧ (finalizeScan buf).pending = [])
    ∧ (∀ buf : TokenBuffer, buf.inToolCall = true →
        (finalizeScan buf).emitted = buf.emitted
        ∧ (finalizeScan buf).toolCalls = buf.toolCalls)
    ∧ (∀ (buf : TokenBuffer) (c : Char), buf.inToolCall = true →
        (scanChar buf c).emitted = buf.emitted) := by
  refine ⟨?_, ?_, ?_⟩
  · rintro ⟨co, pe, tc, itc, em⟩ h
    simp only at h
    subst h
    simp only [finalizeScan, tryFlushPending, tryFlushText]
    by_cases hp : pe.isEmpty <;> by_cases hc : co.isEmpty <;>
      simp_all [List.isEmpty_iff]
  · rintro ⟨co, pe, tc, itc, em⟩ h
    simp only at h
    subst h
    simp only [finalizeScan, tryFlushPending, tryFlushText]
    by_cases hp : pe.isEmpty <;> simp_all [List.isEmpty_iff]
  · rintro ⟨co, pe, tc, itc, em⟩ c h
    simp only at h
    subst h
    simp only [scanChar, scanPendingChar, tryFlushPending, tryFlushText]
    by_cases h1 : c = '<' <;> by_cases hp : pe.isEmpty <;>
      split_ifs <;> simp_all [List.isEmpty_iff]

/-- C6 witness: a concrete unterminated-tag state and a concrete in-call
state behave as the theorem states. -/
theorem stream_end_maybe_tag_and_in_call_witness :
    (finalizeScan (scanFragment TokenBuffer.init ("pre <ab".data))).emitted
        = ("pre <ab".data)
    ∧ (finalizeScan (scanFragment TokenBuffer.init ("pre <tool_call> x".data))).emitted
        = ("pre ".data)
    ∧ (finalizeScan (scanFragment TokenBuffer.init ("pre <tool_call> x".data))).toolCalls
        = [] := by
  have h1 := stream_end_maybe_tag_and_in_call.1
      (scanFragment TokenBuffer.init ("pre <ab".data)) (by decide)
  have h2 := stream_end_maybe_tag_and_in_call.2.1
      (scanFragment TokenBuffer.init ("pre <tool_call> x".data)) (by decide)
  refine ⟨?_, ?_, ?_⟩
  · rw [h1.1]; decide
  · rw [h2.1]; decide
  · rw [h2.2]; decide

/-- A character 60 always just extends the pending buffer. -/
theorem scanChar_lt (buf : TokenBuffer) :
    scanChar buf '<' = { buf with pending := buf.pending ++ ['<'] } := by
  simp [scanChar]

/-- A run of n characters 60 accumulates n characters of pending lookahead. -/
theorem scanFragment_replicate_lt (n : Nat) (buf : TokenBuffer) :
    scanFragment buf (List.replicate n '<')
      = { buf with pending := buf.pending ++ List.replicate n '<' } := by
  induction n generalizing buf with
  | zero => simp [scanFragment]
  | succ n ih =>
    rw [List.replicate_succ]
    show scanFragment (scanChar buf '<') (List.replicate n '<') = _
    rw [scanChar_lt, ih]
    simp

/-- The last element of a list with one element appended. -/
theorem getLast?_snoc (l : List Char) (a : Char) : (l ++ [a]).getLast? = some a := by
  simp

/-- C4 counterexample: after scanning the fragment consisting of 60 then
97, the stripped pending buffer can no longer be a prefix of either
sentinel, yet nothing has been flushed or emitted, the scanner is still
buffering, and a run of 25 characters 60 grows the pending lookahead to
length 25, past the longest sentinel length of 12. -/
theorem maybe_tag_flush_counterexample :
    (scanFragment TokenBuffer.init ("<a".data)).emitted = []
    ∧ (scanFragment TokenBuffer.init ("<a".data)).pending = ("<a".data)
    ∧ (normalizeTag ("<a".data)).isPrefixOf openTag = false
    ∧ (normalizeTag ("<a".data)).isPrefixOf closeTag = false
    ∧ (scanFragment TokenBuffer.init (List.replicate 25 '<')).pending.length = 25 := by
  refine ⟨by decide, by decide, by decide, by decide, ?_⟩
  rw [scanFragment_replicate_lt]
  decide

/-- C4 amended: in MAYBE_TAG (pending buffer non-empty, outside a call,
content already flushed) the scanner flushes the pending buffer verbatim as
plain text and returns to PLAIN exactly in two cases: the appended
character is a 62 completing a buffer whose whitespace-stripped form is
neither sentinel and starts with neither sentinel stem; or the appended
character is neither 60 nor 62 and the buffer length now exceeds 20.  The
lookahead buffer is not bounded by the longest sentinel length: a run of n
characters 60 keeps n characters pending and emits nothing. -/
theorem maybe_tag_flush_amended :
    (∀ (pe em : List Char) (tc : List (List Char)),
        pe ≠ [] →
        normalizeTag (pe ++ ['>']) ≠ openTag →
        normalizeTag (pe ++ ['>']) ≠ closeTag →
        openTagStem.isPrefixOf (normalizeTag (pe ++ ['>'])) = false →
        closeTagStem.isPrefixOf (normalizeTag (pe ++ ['>'])) = false →
        scanChar { content := [], pending := pe, toolCalls := tc,
                   inToolCall := false, emitted := em } '>'
          = { content := [], pending := [], toolCalls := tc,
              inToolCall := false, emitted := em ++ pe ++ ['>'] })
    ∧ (∀ (pe em : List Char) (tc : List (List Char)) (c : Char),
        c ≠ '<' → c ≠ '>' → pe ≠ [] → pe.length + 1 > 20 →
        scanChar { content := [], pending := pe, toolCalls := tc,
                   inToolCall := false, emitted := em } c
          = { content := [], pending := [], toolCalls := tc,
              inToolCall := false, emitted := em ++ pe ++ [c] })
    ∧ (∀ n : Nat,
        (scanFragment TokenBuffer.init (List.replicate n '<')).pending
            = List.replicate n '<'
        ∧ (scanFragment TokenBuffer.init (List.replicate n '<')).emitted = []) := by
  refine ⟨?_, ?_, ?_⟩
  · intro pe em tc hne hno hnc hso hsc
    simp [scanChar, scanPendingChar, tryFlushPending, tryFlushText, getLast?_snoc,
      hno, hnc, hso, hsc, List.isEmpty_iff, hne]
  · intro pe em tc c hlt hgt hne hlen
    simp [scanChar, scanPendingChar, tryFlushPending, tryFlushText, getLast?_snoc,
      hlt, hgt, List.isEmpty_iff, hne, hlen]
  · intro n
    rw [scanFragment_replicate_lt]
    exact ⟨by simp [TokenBuffer.init], by simp [TokenBuffer.init]⟩

/-- C4 amended witness: the flush on a completed non-tag 62, the flush past
20 characters, and the unbounded 60 run, at concrete inputs. -/
theorem maybe_tag_flush_amended_witness :
    scanChar { content := [], pending := ("<a".data), toolCalls := [],
               inToolCall := false, emitted := [] } '>'
        = { content := [], pending := [], toolCalls := [],
            inToolCall := false, emitted := ("<a>".data) }
    ∧ scanChar { content := [], pending := ("<aaaaaaaaaaaaaaaaaaa".data), toolCalls := [],
                 inToolCall := false, emitted := [] } 'x'
        = { content := [], pending := [], toolCalls := [],
            inToolCall := false, emitted := ("<aaaaaaaaaaaaaaaaaaax".data) }
    ∧ (scanFragment TokenBuffer.init (List.replicate 25 '<')).pending
        = List.replicate 25 '<' := by
  refine ⟨?_, ?_, (maybe_tag_flush_amended.2.2 25).1⟩
  · rw [maybe_tag_flush_amended.1 ("<a".data) [] [] (by decide) (by decide) (by decide)
        (by decide) (by decide)]
    decide
  · rw [maybe_tag_flush_amended.2.1 ("<aaaaaaaaaaaaaaaaaaa".data) [] [] 'x' (by decide)
        (by decide) (by decide) (by decide)]
    decide

/-- C7: the decoding loop takes, for each captured raw span, the trimmed
substring between the first 62 and the last 60 and parses it as JSON
(`decodeCall`); a span whose decoding fails is silently dropped: the
messages produced for the whole capture list are exactly those produced
with the undecodable span removed — no message is appended for it, no error
is surfaced, and the remaining spans are still processed. -/
theorem malformed_payload_dropped
    (toolFn : List Char → List (List Char × JsonVal) → List Char)
    (msgs : List QMessage) (pre post : List (List Char)) (bad : List Char)
    (h : decodeCall bad = none) :
    qwenProcessCalls toolFn msgs (pre ++ bad :: post)
      = qwenProcessCalls toolFn msgs (pre ++ post) := by
  simp [qwenProcessCalls, List.foldl_append, h]

/-- C7 witness: a span with a non-JSON payload between its tags is dropped
while the well-formed span before it is still processed. -/
theorem malformed_payload_dropped_witness :
    decodeCall ("<tool_call> nope </tool_call>".data) = none
    ∧ qwenProcessCalls (fun _ _ => ("ok".data)) []
        [("<tool_call> \x7b\"name\":\"t\"\x7d </tool_call>".data),
         ("<tool_call> nope </tool_call>".data)]
      = qwenProcessCalls (fun _ _ => ("ok".data)) []
        [("<tool_call> \x7b\"name\":\"t\"\x7d </tool_call>".data)] := by
  refine ⟨rfl, ?_⟩
  exact malformed_payload_dropped (fun _ _ => ("ok".data)) []
    [("<tool_call> \x7b\"name\":\"t\"\x7d </tool_call>".data)] []
    ("<tool_call> nope </tool_call>".data) rfl

/-- A successful first attempt ends the retry loop at once. -/
theorem retryStream_ok_first {E M : Type} (att : Nat → Except E M) (m : M)
    (rem a : Nat) (h : att a = Except.ok m) :
    retryStream att rem a = Except.ok m := by
  cases rem <;> simp [retryStream, h]

/-- Transient failures before a success inside the attempt ceiling are
invisible in the retry loop's result. -/
theorem retryStream_skips {E M : Type} (att : Nat → Except E M) (m : M) :
    ∀ (k rem a : Nat) (e : Nat → E), k < rem →
      (∀ i, i < k → att (a + i) = Except.error (e i)) →
      att (a + k) = Except.ok m →
      retryStream att rem a = Except.ok m := by
  intro k
  induction k with
  | zero =>
    intro rem a e hlt hfail hok
    exact retryStream_ok_first att m rem a (by simpa using hok)
  | succ k ih =>
    intro rem a e hlt hfail hok
    cases rem with
    | zero => omega
    | succ r =>
      have h0 : att a = Except.error (e 0) := by simpa using hfail 0 (by omega)
      have hr : ¬ r = 0 := by omega
      simp only [retryStream, h0, hr, if_false]
      apply ih r (a + 1) (fun i => e (i + 1)) (by omega)
      · intro i hi
        have heq : a + 1 + i = a + (i + 1) := by omega
        rw [heq]
        exact hfail (i + 1) (by omega)
      · have heq : a + 1 + k = a + (k + 1) := by omega
        rw [heq]
        exact hok

/-- When every attempt up to the ceiling fails, the retry loop returns the
last error. -/
theorem retryStream_all_fail {E M : Type} (att : Nat → Except E M) :
    ∀ (rem a : Nat) (e : Nat → E), 0 < rem →
      (∀ i, i < rem → att (a + i) = Except.error (e i)) →
      retryStream att rem a = Except.error (e (rem - 1)) := by
  intro rem
  induction rem with
  | zero => intro a e hpos; omega
  | succ r ih =>
    intro a e hpos hfail
    have h0 : att a = Except.error (e 0) := by simpa using hfail 0 (by omega)
    by_cases hr : r = 0
    · subst hr
      simp [retryStream, h0]
    · simp only [retryStream, h0, hr, if_false]
      have hr1 : r - 1 + 1 = r := by omega
      have hih := ih (a + 1) (fun i => e (i + 1)) (by omega) (by
        intro i hi
        have heq : a + 1 + i = a + (i + 1) := by omega
        rw [heq]
        exact hfail (i + 1) (by omega))
      simp only [hr1] at hih
      simpa using hih

/-- C5: with the attempt ceiling of 10, transient failures on attempts
1..k followed by a success on attempt k+1 <= 10 make the retry loop return
exactly the successful message; the interaction then appends exactly one
assistant turn (and, in the no-tool-call case settled here, no tool-result
turn at all, so none is duplicated); exhausting all 10 attempts surfaces
the last error as fatal, with the transcript left at the user turn. -/
theorem retry_policy_transcript (env : AEnv) (fuel callIdx : Nat)
    (prompt : List Char) (messages : List ATurn) (k : Nat) (e : Nat → List Char)
    (m : List ABlock) :
    (k < 10 →
      (∀ i, i < k → env.attempts callIdx (1 + i) = Except.error (e i)) →
      env.attempts callIdx (1 + k) = Except.ok m →
      retryStream (env.attempts callIdx) maxRetries 1 = Except.ok m
      ∧ (findFirstToolUse m = none →
          runAgent env (fuel + 1) callIdx prompt messages
            = (Except.ok (concatText m),
               appendUserTurn messages prompt ++ [ATurn.assistant m])))
    ∧ ((∀ i, i < 10 → env.attempts callIdx (1 + i) = Except.error (e i)) →
        runAgent env (fuel + 1) callIdx prompt messages
          = (Except.error (("streaming error: ".data) ++ e 9),
             appendUserTurn messages prompt)) := by
  constructor
  · intro hk hfail hok
    have hretry : retryStream (env.attempts callIdx) maxRetries 1 = Except.ok m :=
      retryStream_skips (env.attempts callIdx) m k maxRetries 1 e
        (by simpa [maxRetries] using hk) hfail hok
    refine ⟨hretry, ?_⟩
    intro hnone
    simp [runAgent, hretry, hnone]
  · intro hfail
    have hretry : retryStream (env.attempts callIdx) maxRetries 1
        = Except.error (e 9) := by
      have := retryStream_all_fail (env.attempts callIdx) maxRetries 1 e
        (by simp [maxRetries]) (by simpa [maxRetries] using hfail)
      simpa [maxRetries] using this
    simp [runAgent, hretry]

/-- The transport oracle failing on the first three attempts and succeeding
on the fourth. -/
def env5 : AEnv :=
  { attempts := fun _ a =>
      if a = 4 then Except.ok [ABlock.text ("hi".data)]
      else Except.error ("boom".data),
    tools := fun _ => none }

/-- The transport oracle failing on every attempt. -/
def env6 : AEnv :=
  { attempts := fun _ _ => Except.error ("boom".data),
    tools := fun _ => none }

/-- C5 witness: three transient failures then success yields one assistant
turn; ten failures yield the fatal last error with only the user turn. -/
theorem retry_policy_transcript_witness :
    runAgent env5 1 0 ("q".data) []
        = (Except.ok ("hi".data),
           [ATurn.userText ("q".data), ATurn.assistant [ABlock.text ("hi".data)]])
    ∧ runAgent env6 1 0 ("q".data) []
        = (Except.error ("streaming error: boom".data),
           [ATurn.userText ("q".data)]) := by
  constructor
  · have h := ((retry_policy_transcript env5 0 0 ("q".data) [] 3
        (fun _ => ("boom".data)) [ABlock.text ("hi".data)]).1
        (by decide) (by intro i hi; interval_cases i <;> rfl) (by rfl)).2 (by rfl)
    rw [h]
    rfl
  · have h := (retry_policy_transcript env6 0 0 ("q".data) [] 0
        (fun _ => ("boom".data)) []).2 (by intro i hi; rfl)
    rw [h]
    rfl

/-- C9: when the dispatched tool's Execute fails, the failure is not fatal:
the error text is wrapped into the descriptive result string, appended to
the transcript as a tool-result turn, and the loop carries on with the next
recursive model call, whose outcome is the interaction's outcome. -/
theorem tool_failure_not_fatal (env : AEnv) (fuel callIdx : Nat)
    (prompt : List Char) (messages : List ATurn) (blocks : List ABlock)
    (id nm : List Char) (input : List (List Char × JsonVal))
    (exec : List (List Char × JsonVal) → Except (List Char) (List Char))
    (e : List Char)
    (h1 : env.attempts callIdx 1 = Except.ok blocks)
    (h2 : findFirstToolUse blocks = some (id, nm, input))
    (h3 : env.tools nm = some exec)
    (h4 : exec input = Except.error e) :
    runAgent env (fuel + 1) callIdx prompt messages
      = runAgent env fuel (callIdx + 1) []
          (appendUserTurn messages prompt
            ++ [ATurn.assistant blocks,
                ATurn.toolResult id (("tool execution failed: Error: ".data) ++ e)]) := by
  have hretry := retryStream_ok_first (env.attempts callIdx) blocks maxRetries 1 h1
  simp [runAgent, hretry, h2, h3, h4]

/-- A model requesting one tool whose Execute fails, then answering. -/
def env9 : AEnv :=
  { attempts := fun c _ =>
      if c = 0 then Except.ok [ABlock.toolUse ("i".data) ("t".data) []]
      else Except.ok [ABlock.text ("done".data)],
    tools := fun nm =>
      if nm = ("t".data) then some (fun _ => Except.error ("EISDIR".data)) else none }

/-- C9 witness: the failed tool execution is recorded as a tool-result turn
and the interaction still finishes with the follow-up answer. -/
theorem tool_failure_not_fatal_witness :
    runAgent env9 (1 + 1) 0 ("p".data) []
      = (Except.ok ("done".data),
         [ATurn.userText ("p".data),
          ATurn.assistant [ABlock.toolUse ("i".data) ("t".data) []],
          ATurn.toolResult ("i".data) ("tool execution failed: Error: EISDIR".data),
          ATurn.assistant [ABlock.text ("done".data)]]) := by
  have h := tool_failure_not_fatal env9 1 0 ("p".data) []
    [ABlock.toolUse ("i".data) ("t".data) []] ("i".data) ("t".data) []
    (fun _ => Except.error ("EISDIR".data)) ("EISDIR".data) rfl rfl rfl rfl
  exact h.trans (by rfl)

/-- An assistant turn carrying a known tool call followed by an unknown
one, with a plain answer on the next call. -/
def envC8 : AEnv :=
  { attempts := fun c _ =>
      if c = 0 then Except.ok [ABlock.toolUse ("id1".data) ("t1".data) [],
                               ABlock.toolUse ("id2".data) ("missing".data) []]
      else Except.ok [ABlock.text ("done".data)],
    tools := fun nm =>
      if nm = ("t1".data) then some (fun _ => Except.ok ("r1".data)) else none }

/-- C8 counterexample: the second tool-call record of the turn names a tool
absent from the registry, yet the interaction does not abort: the loop
recurses right after executing the first block, never looks the second one
up, and completes successfully. -/
theorem unknown_tool_abort_counterexample :
    envC8.tools ("missing".data) = none
    ∧ runAgent envC8 3 0 ("go".data) []
        = (Except.ok ("done".data),
           [ATurn.userText ("go".data),
            ATurn.assistant [ABlock.toolUse ("id1".data) ("t1".data) [],
                             ABlock.toolUse ("id2".data) ("missing".data) []],
            ATurn.toolResult ("id1".data) ("r1".data),
            ATurn.assistant [ABlock.text ("done".data)]]) := by
  exact ⟨rfl, rfl⟩

/-- C8 amended: when the FIRST tool_use block of the assistant turn names a
tool absent from the registry, the interaction aborts with the fatal
unknown-tool error and the transcript holds the user turn and the
assistant turn but no tool-result turn; an unknown name in a later block
of the same turn is never looked up, because the loop returns into the
recursion right after the first block. -/
theorem unknown_tool_first_block_aborts (env : AEnv) (fuel callIdx : Nat)
    (prompt : List Char) (messages : List ATurn) (blocks : List ABlock)
    (id nm : List Char) (input : List (List Char × JsonVal))
    (h0 : (goTrimSpace prompt).isEmpty = false)
    (h1 : env.attempts callIdx 1 = Except.ok blocks)
    (h2 : findFirstToolUse blocks = some (id, nm, input))
    (h3 : env.tools nm = none) :
    runAgent env (fuel + 1) callIdx prompt messages
      = (Except.error (("unknown tool: ".data) ++ nm),
         messages ++ [ATurn.userText prompt, ATurn.assistant blocks]) := by
  have hretry := retryStream_ok_first (env.attempts callIdx) blocks maxRetries 1 h1
  simp [runAgent, hretry, h2, h3, appendUserTurn, h0]

/-- A model whose first and only tool_use block names an unknown tool. -/
def envC8w : AEnv :=
  { attempts := fun _ _ => Except.ok [ABlock.toolUse ("i".data) ("ghost".data) []],
    tools := fun _ => none }

/-- C8 amended witness: the unknown first block aborts the interaction and
leaves exactly the user and assistant turns. -/
theorem unknown_tool_first_block_aborts_witness :
    runAgent envC8w (0 + 1) 0 ("p".data) []
      = (Except.error ("unknown tool: ghost".data),
         [ATurn.userText ("p".data),
          ATurn.assistant [ABlock.toolUse ("i".data) ("ghost".data) []]]) := by
  have h := unknown_tool_first_block_aborts envC8w 0 0 ("p".data) []
    [ABlock.toolUse ("i".data) ("ghost".data) []] ("i".data) ("ghost".data) []
    rfl rfl rfl rfl
  exact h.trans (by rfl)

/-- An assistant turn carrying two known tool calls, with a plain answer on
the next call; both tools are registered with distinct results. -/
def envC3 : AEnv :=
  { attempts := fun c _ =>
      if c = 0 then Except.ok [ABlock.toolUse ("id1".data) ("t1".data) [],
                               ABlock.toolUse ("id2".data) ("t2".data) []]
      else Except.ok [ABlock.text ("done".data)],
    tools := fun nm =>
      if nm = ("t1".data) then some (fun _ => Except.ok ("r1".data))
      else if nm = ("t2".data) then some (fun _ => Except.ok ("r2".data))
      else none }

/-- C3 counterexample: an assistant turn with two tool-call blocks, both
naming registered tools, produces a transcript with exactly one tool-result
turn (for the first block) before the recursive model call; the second
captured call is never executed and no turn for it ever appears. -/
theorem two_tool_calls_one_result_counterexample :
    runAgent envC3 3 0 ("go".data) []
      = (Except.ok ("done".data),
         [ATurn.userText ("go".data),
          ATurn.assistant [ABlock.toolUse ("id1".data) ("t1".data) [],
                           ABlock.toolUse ("id2".data) ("t2".data) []],
          ATurn.toolResult ("id1".data) ("r1".data),
          ATurn.assistant [ABlock.text ("done".data)]]) := by
  rfl

/-- C3 amended: the scanner-based qwen loop does behave as claimed — every
decodable captured call produces one tool-result message, in capture order,
all before the single recursive call — but the Anthropic loop of
src/main.go executes only the first tool_use block of the turn and appends
exactly one tool-result turn before recursing; later blocks of the same
turn are not executed in that frame. -/
theorem tool_calls_executed_in_order_amended :
    (∀ (toolFn : List Char → List (List Char × JsonVal) → List Char)
       (msgs : List QMessage) (pre post : List (List Char)) (c : List Char)
       (n : List Char) (fields : List (List Char × JsonVal)),
       decodeCall c = some (n, fields) →
       qwenProcessCalls toolFn msgs (pre ++ c :: post)
         = qwenProcessCalls toolFn
             (qwenProcessCalls toolFn msgs pre
               ++ [{ role := ("system".data), content := toolFn n fields ++ ['\n'] }])
             post)
    ∧ (∀ (toolFn : List Char → List (List Char × JsonVal) → List Char)
         (responses : Nat → List Char) (fuel idx : Nat) (msgs : List QMessage),
         (finalizeScan (scanFragment TokenBuffer.init (responses idx))).toolCalls.isEmpty
             = false →
         qwenComplete toolFn responses (fuel + 1) idx msgs
           = qwenComplete toolFn responses fuel (idx + 1)
               (qwenProcessCalls toolFn
                 (msgs ++ [{ role := ("assistant".data), content := responses idx }])
                 (finalizeScan (scanFragment TokenBuffer.init (responses idx))).toolCalls))
    ∧ (∀ (env : AEnv) (fuel callIdx : Nat) (prompt : List Char)
         (messages : List ATurn) (blocks : List ABlock) (id nm : List Char)
         (input : List (List Char × JsonVal))
         (exec : List (List Char × JsonVal) → Except (List Char) (List Char))
         (r : List Char),
         env.attempts callIdx 1 = Except.ok blocks →
         findFirstToolUse blocks = some (id, nm, input) →
         env.tools nm = some exec →
         exec input = Except.ok r →
         runAgent env (fuel + 1) callIdx prompt messages
           = runAgent env fuel (callIdx + 1) []
               (appendUserTurn messages prompt
                 ++ [ATurn.assistant blocks, ATurn.toolResult id r])) := by
  refine ⟨?_, ?_, ?_⟩
  · intro toolFn msgs pre post c n fields h
    simp [qwenProcessCalls, List.foldl_append, h]
  · intro toolFn responses fuel idx msgs h
    simp [qwenComplete, h]
  · intro env fuel callIdx prompt messages blocks id nm input exec r h1 h2 h3 h4
    have hretry := retryStream_ok_first (env.attempts callIdx) blocks maxRetries 1 h1
    simp [runAgent, hretry, h2, h3, h4]

set_option maxRecDepth 40000 in
/-- C3 amended witness: a concrete decodable span is processed in place; a
concrete turn with a captured call recurses only after processing its
calls; and the concrete two-block Anthropic turn appends exactly the first
block's tool-result turn before the recursive call. -/
theorem tool_calls_executed_in_order_amended_witness :
    qwenProcessCalls (fun n _ => n) []
        [("<tool_call>\x7b\"name\":\"u\"\x7d</tool_call>".data)]
      = [{ role := ("system".data), content := ("u\n".data) }]
    ∧ qwenComplete (fun n _ => n)
        (fun _ => ("<tool_call>\x7b\"name\":\"u\"\x7d</tool_call>".data)) (0 + 1) 0 []
      = none
    ∧ runAgent envC3 (2 + 1) 0 ("go".data) []
      = (Except.ok ("done".data),
         [ATurn.userText ("go".data),
          ATurn.assistant [ABlock.toolUse ("id1".data) ("t1".data) [],
                           ABlock.toolUse ("id2".data) ("t2".data) []],
          ATurn.toolResult ("id1".data) ("r1".data),
          ATurn.assistant [ABlock.text ("done".data)]]) := by
  refine ⟨?_, ?_, ?_⟩
  · have h := tool_calls_executed_in_order_amended.1 (fun n _ => n) [] [] []
      ("<tool_call>\x7b\"name\":\"u\"\x7d</tool_call>".data) ("u".data)
      [(("name".data), JsonVal.jstr ("u".data))] (by rfl)
    exact h.trans (by rfl)
  · have h := tool_calls_executed_in_order_amended.2.1 (fun n _ => n)
      (fun _ => ("<tool_call>\x7b\"name\":\"u\"\x7d</tool_call>".data)) 0 0 [] (by rfl)
    exact h.trans (by rfl)
  · have h := tool_calls_executed_in_order_amended.2.2 envC3 2 0 ("go".data) []
      [ABlock.toolUse ("id1".data) ("t1".data) [],
       ABlock.toolUse ("id2".data) ("t2".data) []]
      ("id1".data) ("t1".data) [] (fun _ => Except.ok ("r1".data)) ("r1".data)
      rfl rfl rfl rfl
    exact h.trans (by rfl)

/-- C10: a path whose cleaned absolute form does not have the working
directory as a string prefix fails `isPathSafe`; every file-accessing tool
Execute (read_file, list_files, ripgrep) returns the permission error and
performs no filesystem or subprocess access whenever the guard fails; a
read_file access can only be of the supplied path and only when the guard
passed; and every path returned by list_files passed the guard itself. -/
theorem path_guard_blocks_unsafe :
    (∀ (cwd path : List Char),
        (goClean cwd).isPrefixOf (goClean (goAbs cwd path)) = false →
        isPathSafe cwd path = false)
    ∧ (∀ (cwd path : List Char) (fs : GoFS), isPathSafe cwd path = false →
        readFileExecute cwd fs path = (Except.error GoErr.permission, [])
        ∧ listFilesExecute cwd fs path = (Except.error GoErr.permission, [])
        ∧ ∀ (pat : List Char) (opts : RgOpts),
            ripgrepExecute cwd fs pat path opts = (Except.error GoErr.permission, []))
    ∧ (∀ (cwd path : List Char) (fs : GoFS) (res : Except GoErr (List Char))
         (accs : List FSAccess),
        readFileExecute cwd fs path = (res, accs) →
        ∀ a ∈ accs, a = FSAccess.readF path ∧ isPathSafe cwd path = true)
    ∧ (∀ (cwd path : List Char) (fs : GoFS) (files : List (List Char))
         (accs : List FSAccess),
        listFilesExecute cwd fs path = (Except.ok files, accs) →
        ∀ f ∈ files, isPathSafe cwd f = true) := by
  refine ⟨?_, ?_, ?_, ?_⟩
  · intro cwd path h
    simpa [isPathSafe] using h
  · intro cwd path fs h
    refine ⟨?_, ?_, ?_⟩
    · simp [readFileExecute, h]
    · simp [listFilesExecute, h]
    · intro pat opts
      simp [ripgrepExecute, h]
  · intro cwd path fs res accs h a ha
    by_cases hs : isPathSafe cwd path = false
    · unfold readFileExecute at h
      rw [if_pos hs] at h
      obtain ⟨-, h2⟩ := Prod.mk.injEq .. ▸ h
      subst h2
      exact absurd ha (List.not_mem_nil a)
    · have hst : isPathSafe cwd path = true := by
        revert hs; cases isPathSafe cwd path <;> simp
      unfold readFileExecute at h
      rw [if_neg (by simp [hst])] at h
      cases hfr : fs.readFile path <;> rw [hfr] at h <;>
        obtain ⟨-, h2⟩ := Prod.mk.injEq .. ▸ h <;> subst h2 <;>
        simp at ha <;> exact ⟨by simp [ha], hst⟩
  · intro cwd path fs files accs h f hf
    by_cases hs : isPathSafe cwd path = false
    · unfold listFilesExecute at h
      rw [if_pos hs] at h
      obtain ⟨h1, -⟩ := Prod.mk.injEq .. ▸ h
      exact absurd h1 (by simp)
    · have hst : isPathSafe cwd path = true := by
        revert hs; cases isPathSafe cwd path <;> simp
      unfold listFilesExecute at h
      rw [if_neg (by simp [hst])] at h
      obtain ⟨h1, -⟩ := Prod.mk.injEq .. ▸ h
      have hmem : f ∈ (fs.walkEnum path).filterMap
          (fun e => if e.2 = false ∧ isPathSafe cwd e.1 = true then some e.1 else none) := by
        have : files = (fs.walkEnum path).filterMap
            (fun e => if e.2 = false ∧ isPathSafe cwd e.1 = true then some e.1 else none) := by
          exact (Except.ok.injEq .. ▸ h1).symm
        rw [this] at hf
        exact hf
      obtain ⟨e, he, hok⟩ := List.mem_filterMap.1 hmem
      by_cases hc : e.2 = false ∧ isPathSafe cwd e.1 = true
      · rw [if_pos hc] at hok
        obtain rfl : e.1 = f := Option.some.injEq .. ▸ hok
        exact hc.2
      · rw [if_neg hc] at hok
        exact absurd hok (by simp)

/-- A filesystem oracle used by the path-guard witness. -/
def fsW : GoFS :=
  { readFile := fun _ => Except.ok ("secret".data),
    walkEnum := fun _ => [],
    runCmd := fun _ => Except.ok [] }

/-- The all-absent ripgrep option set. -/
def optsW : RgOpts :=
  { caseSensitive := none, literal := none, contextLines := none,
    wordRegexp := none, filesWithMatches := none, maxDepth := none,
    lineNumber := none }

/-- C10 witness: a path outside the working directory fails the guard, and
all three tools return the permission error with no access performed. -/
theorem path_guard_blocks_unsafe_witness :
    isPathSafe ("/home/u".data) ("/etc/passwd".data) = false
    ∧ readFileExecute ("/home/u".data) fsW ("/etc/passwd".data)
        = (Except.error GoErr.permission, [])
    ∧ listFilesExecute ("/home/u".data) fsW ("/etc/passwd".data)
        = (Except.error GoErr.permission, [])
    ∧ ripgrepExecute ("/home/u".data) fsW ("x".data) ("/etc/passwd".data) optsW
        = (Except.error GoErr.permission, []) := by
  have h := path_guard_blocks_unsafe.2.1 ("/home/u".data) ("/etc/passwd".data) fsW
    (by decide)
  exact ⟨by decide, h.1, h.2.1, h.2.2 ("x".data) optsW⟩
